import Mathlib

/-!
# Verification of the ANI (animated cursor) decoder

Shallow embedding of the decoder core of `crates/ani/src/de` (files `mod.rs`,
`parser.rs`, `header.rs`, `metadata.rs`, `error.rs`) of the `ani-to-xcursor`
repository, together with theorems settling the specification's claims about it.

Modelling conventions:

* A byte buffer is a `List Nat` (each element is one byte, `< 256` for real
  inputs).  The Rust `Parser` stores only the not-yet-consumed suffix of the
  input slice (`self.data = data` after `split_at_checked`), so a parser state
  is exactly a `List Nat`.
* Every `&mut self` cursor method of `Parser` becomes a state-passing function
  returning `Except DecodeError result × List Nat`: the pair of the Rust
  return value and the parser state after the call.  When the Rust method
  returns `Err` before assigning `self.data`, the returned state is the
  unchanged input state, mirroring the source exactly.
* Machine integers (`u32`, `usize`) are modelled as `Nat`; the two places
  where Rust release-mode wrap-around can occur (`size - 4` and `4 + size` in
  `Ani::from_bytes`) are modelled with an explicit `% 2^32`.
  `usize::try_from(u32)` never fails on the 64-bit targets the crate
  documents, so it is the identity here.
* The embedded icon-container decoder (the external `ico` crate used by
  `parse_fram_chunk`) is out of scope per the specification; it is a
  parameter `ico : List Nat → Option IcoImages` of the frame decoder.
  `none` models `ico::IconDir::read`/`entry.decode()` failing, which the
  source turns into a process abort via `.expect("todo")`; that abort is
  represented by the `Fail.panicked` outcome.
* `String::from_utf8_lossy` is injective up to the bytes it is given; the
  metadata fields keep the raw bytes (`Option (List Nat)`).
-/

namespace AniDe

/-- A byte buffer / parser state: the not-yet-consumed bytes. -/
abbrev Bytes := List Nat

/-- `2^32`, the modulus of Rust `u32` arithmetic. -/
def U32 : Nat := 4294967296

/-- Four raw bytes naming a chunk type (`type Identifier = [u8; 4]`). -/
abbrev Ident4 := List Nat

/-- The bytes of `*b"RIFF"`. -/
def idRIFF : Ident4 := [0x52, 0x49, 0x46, 0x46]

/-- The bytes of `*b"ACON"`. -/
def idACON : Ident4 := [0x41, 0x43, 0x4F, 0x4E]

/-- The bytes of `*b"LIST"`. -/
def idLIST : Ident4 := [0x4C, 0x49, 0x53, 0x54]

/-- The bytes of `*b"INFO"` (upper case, expected by `from_bytes_strict`). -/
def idINFO : Ident4 := [0x49, 0x4E, 0x46, 0x4F]

/-- The bytes of `*b"info"` (lower case, matched by `from_bytes`). -/
def idinfo : Ident4 := [0x69, 0x6E, 0x66, 0x6F]

/-- The bytes of `*b"fram"`. -/
def idfram : Ident4 := [0x66, 0x72, 0x61, 0x6D]

/-- The bytes of `*b"INAM"`. -/
def idINAM : Ident4 := [0x49, 0x4E, 0x41, 0x4D]

/-- The bytes of `*b"IART"`. -/
def idIART : Ident4 := [0x49, 0x41, 0x52, 0x54]

/-- The bytes of `*b"anih"`. -/
def idanih : Ident4 := [0x61, 0x6E, 0x69, 0x68]

/-- The bytes of `*b"rate"`. -/
def idrate : Ident4 := [0x72, 0x61, 0x74, 0x65]

/-- The bytes of `*b"seq "`. -/
def idseqsp : Ident4 := [0x73, 0x65, 0x71, 0x20]

/-- The bytes of `*b"icon"`. -/
def idicon : Ident4 := [0x69, 0x63, 0x6F, 0x6E]

/-- `DecodeError` from `de/error.rs`.  The `ReadFailure { source: io::Error }`
variant wraps a file-system error produced before decoding starts; its payload
is irrelevant to decoding and is dropped. -/
inductive DecodeError
  | ReadFailure
  | NotEnoughBytes (needed : Nat)
  | UnexpectedIdentifier (expected actual : Ident4)
  /-- Modelled from the spec: the `UnknownIdentifier{actual}` variant of the
  error taxonomy (spec §4.6).  `Ani::from_bytes` constructs
  `DecodeError::UnknownIdentifier { actual }` at `de/mod.rs:173,188`, but the
  variant's declaration is missing from the provided `de/error.rs`. -/
  | UnknownIdentifier (actual : Ident4)
  | SizeMismatch (expected actual : Nat)
  | InvalidHeaderSize (actual : Nat)
  | InvalidAlignmentU32
  | MissingChunk (expected : Ident4)
  deriving DecidableEq

/-- Outcome of a whole decode call: a returned `DecodeError`, or a Rust panic
(the `.expect("todo")` calls in `parse_fram_chunk`), which never returns a
value at all. -/
inductive Fail
  | err (e : DecodeError)
  | panicked
  deriving DecidableEq

/-- Result of a `&mut self` parser method: the Rust return value plus the
parser state (remaining bytes) after the call. -/
abbrev PRes (α : Type) := Except DecodeError α × Bytes

/-- Sequencing of parser steps: on error the error and the state at the point
of failure propagate, exactly like Rust `?`. -/
def pbind {α β : Type} (x : PRes α) (f : α → Bytes → PRes β) : PRes β :=
  match x with
  | (Except.ok a, s) => f a s
  | (Except.error e, s) => (Except.error e, s)

/-- `Parser::read_bytes(size)`: `split_at_checked`; on shortfall
`NotEnoughBytes { needed: size.saturating_sub(self.data.len()) }` without
advancing. -/
def readBytesS (size : Nat) (s : Bytes) : PRes Bytes :=
  if size ≤ s.length then (Except.ok (s.take size), s.drop size)
  else (Except.error (DecodeError.NotEnoughBytes (size - s.length)), s)

/-- `Parser::peek_bytes(size)`: like `read_bytes` but never advances. -/
def peekBytesS (size : Nat) (s : Bytes) : PRes Bytes :=
  if size ≤ s.length then (Except.ok (s.take size), s)
  else (Except.error (DecodeError.NotEnoughBytes (size - s.length)), s)

/-- `Parser::read::<Identifier>()`: 4 bytes copied verbatim (a `[u8; 4]` has
the same bytes under any endianness). -/
def readIdentS (s : Bytes) : PRes Ident4 :=
  readBytesS 4 s

/-- `u32::from_le_bytes` on a 4-byte slice.  The catch-all arm is unreachable:
every call site passes exactly 4 bytes (`try_into().unwrap()` in the source). -/
def leDec4 (b : Bytes) : Nat :=
  match b with
  | [b0, b1, b2, b3] => b0 + 0x100 * b1 + 0x10000 * b2 + 0x1000000 * b3
  | _ => 0

/-- The little-endian 4-byte encoding of `n` (`u32::to_le_bytes`). -/
def le32 (n : Nat) : Bytes :=
  [n % 256, n / 256 % 256, n / 65536 % 256, n / 16777216 % 256]

/-- `Parser::expect_identifier(expected)`: reads 4 bytes; on mismatch it
returns `UnexpectedIdentifier` *before* assigning `self.data`, so the cursor
does not advance. -/
def expectIdentS (expected : Ident4) (s : Bytes) : PRes Unit :=
  if 4 ≤ s.length then
    if s.take 4 = expected then (Except.ok (), s.drop 4)
    else (Except.error (DecodeError.UnexpectedIdentifier expected (s.take 4)), s)
  else (Except.error (DecodeError.NotEnoughBytes (4 - s.length)), s)

/-- `Parser::read_size()`: a little-endian `u32` length field. -/
def readSizeS (s : Bytes) : PRes Nat :=
  if 4 ≤ s.length then (Except.ok (leDec4 (s.take 4)), s.drop 4)
  else (Except.error (DecodeError.NotEnoughBytes (4 - s.length)), s)

/-- `Parser::peek_size()`: like `read_size` but never advances. -/
def peekSizeS (s : Bytes) : PRes Nat :=
  if 4 ≤ s.length then (Except.ok (leDec4 (s.take 4)), s)
  else (Except.error (DecodeError.NotEnoughBytes (4 - s.length)), s)

/-- The `anih` header record (`de/header.rs`), nine `u32` fields in `repr(C)`
order; `flags` is the raw `bitflags` value. -/
structure Header where
  size : Nat
  frames : Nat
  steps : Nat
  x : Nat
  y : Nat
  bit_count : Nat
  planes : Nat
  jif_rate : Nat
  flags : Nat
  deriving DecidableEq

/-- The `i`-th little-endian `u32` field of a record starting at `s`. -/
def fieldAt (s : Bytes) (i : Nat) : Nat :=
  leDec4 ((s.drop (4 * i)).take 4)

/-- `Parser::read::<Header>()` as it behaves on the little-endian targets the
crate runs on: 36 bytes are consumed (`split_at_checked`), and
`ptr::read_unaligned` reinterprets them as nine consecutive `u32` fields in
declaration order (`repr(C)`, no padding).  On shortfall:
`NotEnoughBytes { needed: 36 - len }` without advancing. -/
def readHeaderS (s : Bytes) : PRes Header :=
  if 36 ≤ s.length then
    (Except.ok
      { size := fieldAt s 0, frames := fieldAt s 1, steps := fieldAt s 2
        x := fieldAt s 3, y := fieldAt s 4, bit_count := fieldAt s 5
        planes := fieldAt s 6, jif_rate := fieldAt s 7, flags := fieldAt s 8 },
      s.drop 36)
  else (Except.error (DecodeError.NotEnoughBytes (36 - s.length)), s)

/-- Cursor metadata (`de/metadata.rs`).  The Rust fields hold
`String::from_utf8_lossy(bytes).to_string()`; we keep the bytes themselves. -/
structure Metadata where
  title : Option Bytes
  author : Option Bytes
  deriving DecidableEq

/-- Stand-in for one decoded frame, the `Vec<ico::IconImage>` produced by the
external `ico` crate from one `icon` sub-chunk payload.  Decoded images are
opaque to this core (spec §6); only their identity matters. -/
abbrev IcoImages := List Nat

/-- The decoded aggregate `Ani` (`de/mod.rs`). -/
structure Ani where
  metadata : Option Metadata
  header : Header
  rates : Option (List Nat)
  sequence : Option (List Nat)
  frames : List IcoImages
  deriving DecidableEq

/-- `parse_info_chunk`, author half: probe `IART`; treat only
`UnexpectedIdentifier` as absence. -/
def parseInfoAuthor (title : Option Bytes) (s : Bytes) : PRes Metadata :=
  match expectIdentS idIART s with
  | (Except.ok _, s1) =>
    pbind (readSizeS s1) fun sz s2 =>
    pbind (readBytesS sz s2) fun bytes s3 =>
    (Except.ok { title := title, author := some bytes }, s3)
  | (Except.error (DecodeError.UnexpectedIdentifier _ _), s1) =>
    (Except.ok { title := title, author := none }, s1)
  | (Except.error e, s1) => (Except.error e, s1)

/-- `parse_info_chunk` (`de/mod.rs`): probe `INAM` then `IART`, each
independently optional via identifier-probe rollback. -/
def parseInfoChunk (s : Bytes) : PRes Metadata :=
  match expectIdentS idINAM s with
  | (Except.ok _, s1) =>
    pbind (readSizeS s1) fun sz s2 =>
    pbind (readBytesS sz s2) fun bytes s3 =>
    parseInfoAuthor (some bytes) s3
  | (Except.error (DecodeError.UnexpectedIdentifier _ _), s1) => parseInfoAuthor none s1
  | (Except.error e, s1) => (Except.error e, s1)

/-- `parse_anih_chunk` (`de/mod.rs`): the chunk's own size field must be 36,
then the 36-byte header record is read.  (`assert_eq!(size_of::<Header>(), 36)`
always holds and is omitted.) -/
def parseAnihChunk (s : Bytes) : PRes Header :=
  pbind (readSizeS s) fun size s1 =>
  if size ≠ 36 then (Except.error (DecodeError.InvalidHeaderSize size), s1)
  else readHeaderS s1

/-- `chunks(4).map(u32::from_le_bytes)` over a buffer.  The source buffer
always has length a multiple of 4 (checked by the caller), so the catch-all
arm is unreachable there. -/
def u32sOfBytes : Bytes → List Nat
  | b0 :: b1 :: b2 :: b3 :: rest => leDec4 [b0, b1, b2, b3] :: u32sOfBytes rest
  | _ => []

/-- `parse_rate_chunk` (`de/mod.rs`). -/
def parseRateChunk (s : Bytes) : PRes (List Nat) :=
  pbind (readSizeS s) fun size s1 =>
  if size % 4 ≠ 0 then (Except.error DecodeError.InvalidAlignmentU32, s1)
  else
    pbind (readBytesS size s1) fun bytes s2 =>
    (Except.ok (u32sOfBytes bytes), s2)

/-- `parse_seq_chunk` (`de/mod.rs`); same body as `parse_rate_chunk`. -/
def parseSeqChunk (s : Bytes) : PRes (List Nat) :=
  pbind (readSizeS s) fun size s1 =>
  if size % 4 ≠ 0 then (Except.error DecodeError.InvalidAlignmentU32, s1)
  else
    pbind (readBytesS size s1) fun bytes s2 =>
    (Except.ok (u32sOfBytes bytes), s2)

/-- `parse_fram_chunk` (`de/mod.rs`): `frames_count` repetitions of an `icon`
sub-chunk; each payload goes to the external `ico` decoder, whose failure the
source converts into a panic by `.expect("todo")`. -/
def parseFramChunk (ico : Bytes → Option IcoImages) :
    Nat → Bytes → Except Fail (List IcoImages) × Bytes
  | 0, s => (Except.ok [], s)
  | n + 1, s =>
    match expectIdentS idicon s with
    | (Except.error e, s1) => (Except.error (Fail.err e), s1)
    | (Except.ok _, s1) =>
      match readSizeS s1 with
      | (Except.error e, s2) => (Except.error (Fail.err e), s2)
      | (Except.ok sz, s2) =>
        match readBytesS sz s2 with
        | (Except.error e, s3) => (Except.error (Fail.err e), s3)
        | (Except.ok buf, s3) =>
          match ico buf with
          | none => (Except.error Fail.panicked, s3)
          | some imgs =>
            match parseFramChunk ico n s3 with
            | (Except.error e, s4) => (Except.error e, s4)
            | (Except.ok rest, s4) => (Except.ok (imgs :: rest), s4)

/-- `validate_signature` (`de/mod.rs`): `RIFF`, the little-endian size field,
the `bytes_remaining() < size` check, then `ACON`. -/
def validateSignatureS (s : Bytes) : PRes Unit :=
  pbind (expectIdentS idRIFF s) fun _ s1 =>
  pbind (readSizeS s1) fun size s2 =>
  if s2.length < size then (Except.error (DecodeError.SizeMismatch size s2.length), s2)
  else expectIdentS idACON s2

/-- The optional-`LIST INFO` step of `Ani::from_bytes_strict`: only
`UnexpectedIdentifier` on the `LIST` probe means "no metadata". -/
def strictMetadataS (s : Bytes) : PRes (Option Metadata) :=
  match expectIdentS idLIST s with
  | (Except.ok _, s1) =>
    pbind (readSizeS s1) fun _ s2 =>
    pbind (expectIdentS idINFO s2) fun _ s3 =>
    pbind (parseInfoChunk s3) fun m s4 =>
    (Except.ok (some m), s4)
  | (Except.error (DecodeError.UnexpectedIdentifier _ _), s1) => (Except.ok none, s1)
  | (Except.error e, s1) => (Except.error e, s1)

/-- The optional-`rate` step of `Ani::from_bytes_strict`. -/
def strictRateS (s : Bytes) : PRes (Option (List Nat)) :=
  match expectIdentS idrate s with
  | (Except.ok _, s1) =>
    pbind (parseRateChunk s1) fun v s2 => (Except.ok (some v), s2)
  | (Except.error (DecodeError.UnexpectedIdentifier _ _), s1) => (Except.ok none, s1)
  | (Except.error e, s1) => (Except.error e, s1)

/-- The optional-`seq ` step of `Ani::from_bytes_strict`. -/
def strictSeqS (s : Bytes) : PRes (Option (List Nat)) :=
  match expectIdentS idseqsp s with
  | (Except.ok _, s1) =>
    pbind (parseSeqChunk s1) fun v s2 => (Except.ok (some v), s2)
  | (Except.error (DecodeError.UnexpectedIdentifier _ _), s1) => (Except.ok none, s1)
  | (Except.error e, s1) => (Except.error e, s1)

/-- `Ani::from_bytes_strict` (`de/mod.rs`): signature, optional metadata,
mandatory `anih`, optional `rate`, optional `seq `, mandatory `LIST`/`fram`
with `header.frames()` icon sub-chunks. -/
def fromBytesStrict (ico : Bytes → Option IcoImages) (data : Bytes) : Except Fail Ani :=
  match validateSignatureS data with
  | (Except.error e, _) => Except.error (Fail.err e)
  | (Except.ok _, s0) =>
  match strictMetadataS s0 with
  | (Except.error e, _) => Except.error (Fail.err e)
  | (Except.ok md, s1) =>
  match pbind (expectIdentS idanih s1) (fun _ t => parseAnihChunk t) with
  | (Except.error e, _) => Except.error (Fail.err e)
  | (Except.ok hdr, s2) =>
  match strictRateS s2 with
  | (Except.error e, _) => Except.error (Fail.err e)
  | (Except.ok rs, s3) =>
  match strictSeqS s3 with
  | (Except.error e, _) => Except.error (Fail.err e)
  | (Except.ok sq, s4) =>
  match pbind (expectIdentS idLIST s4)
      (fun _ t => pbind (readSizeS t) fun _ u => expectIdentS idfram u) with
  | (Except.error e, _) => Except.error (Fail.err e)
  | (Except.ok _, s5) =>
  match parseFramChunk ico hdr.frames s5 with
  | (Except.error e, _) => Except.error e
  | (Except.ok frs, _) =>
    Except.ok { metadata := md, header := hdr, rates := rs, sequence := sq, frames := frs }

/-- Rust release-mode `u32` wrapping subtraction `n - 4` (`Ani::from_bytes`,
arm `b"LIST"`). -/
def wsub4 (n : Nat) : Nat := (n + (U32 - 4)) % U32

/-- Rust release-mode `u32` wrapping addition `4 + n` (`Ani::from_bytes`, arms
`b"anih"`, `b"rate"`, `b"seq "`). -/
def wadd4 (n : Nat) : Nat := (4 + n) % U32

/-- The chunk classification of the lenient scan (local `enum Kind` in
`Ani::from_bytes`). -/
inductive Kind
  | metadata
  | header
  | rate
  | sequence
  | frames
  deriving DecidableEq

/-- A classified raw chunk of the lenient scan (local `struct Chunk`). -/
structure Chunk where
  kind : Kind
  data : Bytes
  deriving DecidableEq

/-- Lifts a parser-method result into the pure `Except` used by the scan: on
error the state is discarded, matching `?` inside `Ani::from_bytes`. -/
def stepE {α : Type} (x : PRes α) : Except DecodeError (α × Bytes) :=
  match x with
  | (Except.ok a, s) => Except.ok (a, s)
  | (Except.error e, _) => Except.error e

/-- One iteration of the scan loop of `Ani::from_bytes` for a state with at
least 2 bytes remaining: read a 4-byte identifier, classify, and buffer the
chunk's raw bytes. -/
def scanStep (s : Bytes) : Except DecodeError (Chunk × Bytes) := do
  let (ident, s1) ← stepE (readIdentS s)
  if ident = idLIST then
    let (sz, s2) ← stepE (readSizeS s1)
    let (next, s3) ← stepE (readIdentS s2)
    if next = idinfo then
      let (d, s4) ← stepE (readBytesS (wsub4 sz) s3)
      return ({ kind := Kind.metadata, data := d }, s4)
    else if next = idfram then
      let (d, s4) ← stepE (readBytesS (wsub4 sz) s3)
      return ({ kind := Kind.frames, data := d }, s4)
    else throw (DecodeError.UnknownIdentifier next)
  else if ident = idanih then
    let (sz, _) ← stepE (peekSizeS s1)
    let (d, s2) ← stepE (readBytesS (wadd4 sz) s1)
    return ({ kind := Kind.header, data := d }, s2)
  else if ident = idrate then
    let (sz, _) ← stepE (peekSizeS s1)
    let (d, s2) ← stepE (readBytesS (wadd4 sz) s1)
    return ({ kind := Kind.rate, data := d }, s2)
  else if ident = idseqsp then
    let (sz, _) ← stepE (peekSizeS s1)
    let (d, s2) ← stepE (readBytesS (wadd4 sz) s1)
    return ({ kind := Kind.sequence, data := d }, s2)
  else throw (DecodeError.UnknownIdentifier ident)

/-- The scan loop of `Ani::from_bytes`, structurally recursive on a fuel
value.  Every iteration consumes at least one byte (a lone trailing byte is
swallowed; otherwise `scanStep` consumes at least the 4 identifier bytes, see
`scanStep_consumes`), so the loop runs at most `s.length` iterations and the
zero-fuel arm is unreachable from `scanChunks`; `scanChunksAux_fuel_irrel`
makes the fuel-independence precise. -/
def scanChunksAux : Nat → Bytes → Except DecodeError (List Chunk)
  | 0, _ => Except.ok []
  | _ + 1, [] => Except.ok []
  | _ + 1, [_] => Except.ok []
  | fuel + 1, a :: b :: t =>
    match scanStep (a :: b :: t) with
    | Except.error e => Except.error e
    | Except.ok (c, rest) =>
      match scanChunksAux fuel rest with
      | Except.error e => Except.error e
      | Except.ok cs => Except.ok (c :: cs)

/-- The classify-everything scan of `Ani::from_bytes`:
`while parser.bytes_remaining() > 0 { ... }`. -/
def scanChunks (s : Bytes) : Except DecodeError (List Chunk) :=
  scanChunksAux s.length s

/-- `chunks.iter().find(|c| c.kind == kind)`. -/
def findKind (cs : List Chunk) (k : Kind) : Option Chunk :=
  cs.find? fun c => decide (c.kind = k)

/-- The metadata assembly step of `Ani::from_bytes`. -/
def lenientMetadata (cs : List Chunk) : Except DecodeError (Option Metadata) :=
  match findKind cs Kind.metadata with
  | some c => ((parseInfoChunk c.data).1).map some
  | none => Except.ok none

/-- The header assembly step of `Ani::from_bytes`. -/
def lenientHeader (cs : List Chunk) : Except DecodeError Header :=
  match findKind cs Kind.header with
  | some c => (parseAnihChunk c.data).1
  | none => Except.error (DecodeError.MissingChunk idanih)

/-- The rate-table assembly step of `Ani::from_bytes`. -/
def lenientRates (cs : List Chunk) : Except DecodeError (Option (List Nat)) :=
  match findKind cs Kind.rate with
  | some c => ((parseRateChunk c.data).1).map some
  | none => Except.ok none

/-- The sequence-table assembly step of `Ani::from_bytes`. -/
def lenientSeqTable (cs : List Chunk) : Except DecodeError (Option (List Nat)) :=
  match findKind cs Kind.sequence with
  | some c => ((parseSeqChunk c.data).1).map some
  | none => Except.ok none

/-- The frames assembly step of `Ani::from_bytes`. -/
def lenientFrames (ico : Bytes → Option IcoImages) (cs : List Chunk) (n : Nat) :
    Except Fail (List IcoImages) :=
  match findKind cs Kind.frames with
  | some c => (parseFramChunk ico n c.data).1
  | none => Except.error (Fail.err (DecodeError.MissingChunk idfram))

/-- `Ani::from_bytes` (`de/mod.rs`): signature, classify-everything scan, then
decode each buffered chunk kind in fixed logical order. -/
def fromBytes (ico : Bytes → Option IcoImages) (data : Bytes) : Except Fail Ani :=
  match validateSignatureS data with
  | (Except.error e, _) => Except.error (Fail.err e)
  | (Except.ok _, s0) =>
  match scanChunks s0 with
  | Except.error e => Except.error (Fail.err e)
  | Except.ok chunks =>
  match lenientMetadata chunks with
  | Except.error e => Except.error (Fail.err e)
  | Except.ok md =>
  match lenientHeader chunks with
  | Except.error e => Except.error (Fail.err e)
  | Except.ok hdr =>
  match lenientRates chunks with
  | Except.error e => Except.error (Fail.err e)
  | Except.ok rs =>
  match lenientSeqTable chunks with
  | Except.error e => Except.error (Fail.err e)
  | Except.ok sq =>
  match lenientFrames ico chunks hdr.frames with
  | Except.error e => Except.error e
  | Except.ok frs =>
    Except.ok { metadata := md, header := hdr, rates := rs, sequence := sq, frames := frs }

/-- A 36-byte `anih` header record with internal size field `sz`, frame count
`fr`, and all other fields zero. -/
def hdrBytes (sz fr : Nat) : Bytes := le32 sz ++ le32 fr ++ List.replicate 28 0

/-- A buffer satisfying the strict wire grammar of spec §6, containing a
metadata chunk `LIST/INFO` with an empty `INAM` title, an `anih` header with
frame count 0, and an empty `LIST/fram` chunk; all chunk sizes are exact. -/
def bufInfo : Bytes :=
  idRIFF ++ le32 80 ++ idACON ++
  idLIST ++ le32 12 ++ idINFO ++ idINAM ++ le32 0 ++
  idanih ++ le32 36 ++ hdrBytes 36 0 ++
  idLIST ++ le32 4 ++ idfram

/-- A grammar-conforming buffer without metadata whose `anih` *record* carries
internal size field 0 (the chunk size field before it is the mandatory 36). -/
def bufHdr0 : Bytes :=
  idRIFF ++ le32 60 ++ idACON ++
  idanih ++ le32 36 ++ hdrBytes 0 0 ++
  idLIST ++ le32 4 ++ idfram

/-- The aggregate decoded from `bufHdr0`. -/
def aniHdr0 : Ani :=
  { metadata := none
    header := { size := 0, frames := 0, steps := 0, x := 0, y := 0
                bit_count := 0, planes := 0, jif_rate := 0, flags := 0 }
    rates := none
    sequence := none
    frames := [] }

/-- A structurally well-formed buffer whose single `icon` sub-chunk has an
empty payload, which the external icon decoder rejects. -/
def bufPanic : Bytes :=
  idRIFF ++ le32 0 ++ idACON ++
  idanih ++ le32 36 ++ hdrBytes 36 1 ++
  idLIST ++ le32 12 ++ idfram ++
  idicon ++ le32 0

/-! ## Helper lemmas about the cursor primitives -/

theorem le32_length (n : Nat) : (le32 n).length = 4 := rfl

theorem leDec4_le32 (n : Nat) (h : n < U32) : leDec4 (le32 n) = n := by
  simp only [le32, leDec4, U32] at *
  omega

theorem readBytesS_append (pre rest : Bytes) :
    readBytesS pre.length (pre ++ rest) = (Except.ok pre, rest) := by
  unfold readBytesS
  rw [if_pos (by simp), List.take_left, List.drop_left]

theorem expectIdentS_append (id4 : Ident4) (h : id4.length = 4) (rest : Bytes) :
    expectIdentS id4 (id4 ++ rest) = (Except.ok (), rest) := by
  unfold expectIdentS
  rw [if_pos (by simp [List.length_append, h]), List.take_left' h, if_pos rfl,
    List.drop_left' h]

theorem readSizeS_le32 (n : Nat) (h : n < U32) (rest : Bytes) :
    readSizeS (le32 n ++ rest) = (Except.ok n, rest) := by
  unfold readSizeS
  rw [if_pos (by simp [List.length_append, le32_length]), List.take_left' (le32_length n),
    List.drop_left' (le32_length n), leDec4_le32 n h]

/-! ## C6 -/

/-- C6: a parser state with at least 4 bytes remaining whose next 4 bytes
differ from `expected` makes `expect_identifier(expected)` return
`UnexpectedIdentifier { expected, actual }` with `actual` those 4 bytes, and
leaves the cursor unchanged, so a subsequent probe reads the same 4 bytes. -/
theorem expect_identifier_mismatch_keeps_cursor (expected : Ident4) (s : Bytes)
    (h4 : 4 ≤ s.length) (hne : s.take 4 ≠ expected) :
    expectIdentS expected s =
      (Except.error (DecodeError.UnexpectedIdentifier expected (s.take 4)), s) := by
  unfold expectIdentS
  rw [if_pos h4, if_neg hne]

/-- Witness for C6: probing `rate` on a state whose next bytes spell `anih`. -/
theorem expect_identifier_mismatch_keeps_cursor_witness :
    4 ≤ ([0x61, 0x6E, 0x69, 0x68, 0x24] : Bytes).length ∧
    List.take 4 ([0x61, 0x6E, 0x69, 0x68, 0x24] : Bytes) ≠ idrate ∧
    expectIdentS idrate [0x61, 0x6E, 0x69, 0x68, 0x24] =
      (Except.error
        (DecodeError.UnexpectedIdentifier idrate
          (List.take 4 ([0x61, 0x6E, 0x69, 0x68, 0x24] : Bytes))),
        [0x61, 0x6E, 0x69, 0x68, 0x24]) :=
  ⟨by decide, by decide,
    expect_identifier_mismatch_keeps_cursor idrate _ (by decide) (by decide)⟩

/-! ## C8 -/

/-- C8: signature validation checks `RIFF`, then the little-endian size field,
then fails with `SizeMismatch { expected := size, actual := bytes_remaining }`
exactly when fewer than `size` bytes remain (a smaller declared size is
accepted), then checks `ACON`; and the 12-byte input `RIFF\x04\0\0\0ACON`
passes with zero remaining bytes. -/
theorem validate_signature_order_and_size_check :
    (∀ (size : Nat) (rest : Bytes), size < U32 →
      validateSignatureS (idRIFF ++ (le32 size ++ rest)) =
        if rest.length < size then
          (Except.error (DecodeError.SizeMismatch size rest.length), rest)
        else expectIdentS idACON rest) ∧
    validateSignatureS (idRIFF ++ (le32 4 ++ idACON)) = (Except.ok (), []) := by
  constructor
  · intro size rest h
    unfold validateSignatureS
    rw [expectIdentS_append idRIFF rfl]
    show pbind (readSizeS (le32 size ++ rest)) _ = _
    rw [readSizeS_le32 size h]
    rfl
  · rfl

/-- Witness for C8: a declared size of 60 against only 4 remaining bytes
triggers the `SizeMismatch` branch. -/
theorem validate_signature_order_and_size_check_witness :
    (60 < U32) ∧
    validateSignatureS (idRIFF ++ (le32 60 ++ idACON)) =
      (if (idACON : Bytes).length < 60 then
        (Except.error (DecodeError.SizeMismatch 60 (idACON : Bytes).length), idACON)
      else expectIdentS idACON idACON) :=
  ⟨by decide, validate_signature_order_and_size_check.1 60 idACON (by decide)⟩

/-! ## C9 -/

/-- C9: decoding an `anih` chunk whose declared size field is not 36 fails
with `InvalidHeaderSize { actual := size }`, and the 36-byte header record is
read exactly when that size equals 36.  Both pipelines decode `anih` chunks
through this one function (`parse_anih_chunk`). -/
theorem parse_anih_rejects_bad_size :
    ∀ (size : Nat) (rest : Bytes), size < U32 →
      (size ≠ 36 →
        parseAnihChunk (le32 size ++ rest) =
          (Except.error (DecodeError.InvalidHeaderSize size), rest)) ∧
      (size = 36 → parseAnihChunk (le32 size ++ rest) = readHeaderS rest) := by
  intro size rest h
  constructor
  · intro hne
    unfold parseAnihChunk
    rw [readSizeS_le32 size h]
    show (if size ≠ 36 then _ else _) = _
    rw [if_pos hne]
  · intro he
    subst he
    unfold parseAnihChunk
    rw [readSizeS_le32 36 h]
    rfl

/-- Witness for C9: declared size 10 is rejected with `InvalidHeaderSize 10`. -/
theorem parse_anih_rejects_bad_size_witness :
    (10 < U32 ∧ (10 : Nat) ≠ 36) ∧
    parseAnihChunk (le32 10 ++ []) = (Except.error (DecodeError.InvalidHeaderSize 10), []) :=
  ⟨⟨by decide, by decide⟩, (parse_anih_rejects_bad_size 10 [] (by decide)).1 (by decide)⟩

/-! ## C10 -/

theorem u32sOfBytes_length : ∀ bs : Bytes, (u32sOfBytes bs).length = bs.length / 4
  | [] => by simp [u32sOfBytes]
  | [_] => by simp [u32sOfBytes]
  | [_, _] => by simp [u32sOfBytes]
  | [_, _, _] => by simp [u32sOfBytes]
  | b0 :: b1 :: b2 :: b3 :: t => by
    simp only [u32sOfBytes, List.length_cons, u32sOfBytes_length t]
    omega

theorem u32sOfBytes_get : ∀ (bs : Bytes) (i : Nat), 4 * i + 4 ≤ bs.length →
    (u32sOfBytes bs)[i]? = some (leDec4 ((bs.drop (4 * i)).take 4))
  | [], i, h => by simp at h
  | [_], i, h => by simp at h
  | [_, _], i, h => by simp at h
  | [_, _, _], i, h => by simp at h
  | b0 :: b1 :: b2 :: b3 :: t, 0, _ => by simp [u32sOfBytes]
  | b0 :: b1 :: b2 :: b3 :: t, i + 1, h => by
    have ih := u32sOfBytes_get t i (by simp at h; omega)
    simp only [u32sOfBytes, List.getElem?_cons_succ, ih]
    have harith : 4 * (i + 1) = 4 * i + 4 := by omega
    rw [harith]
    rfl

/-- C10: a `rate` or `seq ` chunk whose declared length is not a multiple of 4
always fails with `InvalidAlignmentU32`; when the length is a multiple of 4
and that many bytes remain, the decoder returns `length / 4` unsigned 32-bit
values, the `i`-th decoded little-endian from bytes `4i .. 4i+3` of the
payload, in file order. -/
theorem rate_seq_alignment_and_values :
    ∀ (size : Nat) (rest : Bytes), size < U32 →
      (size % 4 ≠ 0 →
        parseRateChunk (le32 size ++ rest) =
          (Except.error DecodeError.InvalidAlignmentU32, rest) ∧
        parseSeqChunk (le32 size ++ rest) =
          (Except.error DecodeError.InvalidAlignmentU32, rest)) ∧
      (size % 4 = 0 → size ≤ rest.length →
        parseRateChunk (le32 size ++ rest) =
          (Except.ok (u32sOfBytes (rest.take size)), rest.drop size) ∧
        parseSeqChunk (le32 size ++ rest) =
          (Except.ok (u32sOfBytes (rest.take size)), rest.drop size) ∧
        (u32sOfBytes (rest.take size)).length = size / 4 ∧
        (∀ i : Nat, i < size / 4 →
          (u32sOfBytes (rest.take size))[i]? =
            some (leDec4 ((rest.drop (4 * i)).take 4)))) := by
  intro size rest h
  constructor
  · intro hmod
    constructor
    · unfold parseRateChunk
      rw [readSizeS_le32 size h]
      show (if size % 4 ≠ 0 then _ else _) = _
      rw [if_pos hmod]
    · unfold parseSeqChunk
      rw [readSizeS_le32 size h]
      show (if size % 4 ≠ 0 then _ else _) = _
      rw [if_pos hmod]
  · intro hmod hlen
    have hread : readBytesS size rest = (Except.ok (rest.take size), rest.drop size) := by
      unfold readBytesS
      rw [if_pos hlen]
    refine ⟨?_, ?_, ?_, ?_⟩
    · unfold parseRateChunk
      rw [readSizeS_le32 size h]
      show (if size % 4 ≠ 0 then _ else _) = _
      rw [if_neg (by omega)]
      show pbind (readBytesS size rest) _ = _
      rw [hread]
      rfl
    · unfold parseSeqChunk
      rw [readSizeS_le32 size h]
      show (if size % 4 ≠ 0 then _ else _) = _
      rw [if_neg (by omega)]
      show pbind (readBytesS size rest) _ = _
      rw [hread]
      rfl
    · rw [u32sOfBytes_length, List.length_take]
      omega
    · intro i hi
      have hbound : 4 * i + 4 ≤ (rest.take size).length := by
        rw [List.length_take]
        omega
      rw [u32sOfBytes_get (rest.take size) i hbound, List.drop_take,
        List.take_take]
      have : min 4 (size - 4 * i) = 4 := by omega
      rw [this]

/-- Witness for C10: an 8-byte payload decodes to the two words 1 and 2. -/
theorem rate_seq_alignment_and_values_witness :
    (8 < U32 ∧ 8 % 4 = 0 ∧ 8 ≤ ([1, 0, 0, 0, 2, 0, 0, 0] : Bytes).length) ∧
    parseRateChunk (le32 8 ++ [1, 0, 0, 0, 2, 0, 0, 0]) =
      (Except.ok (u32sOfBytes (List.take 8 ([1, 0, 0, 0, 2, 0, 0, 0] : Bytes))),
        List.drop 8 ([1, 0, 0, 0, 2, 0, 0, 0] : Bytes)) :=
  ⟨⟨by decide, by decide, by decide⟩,
    ((rate_seq_alignment_and_values 8 [1, 0, 0, 0, 2, 0, 0, 0] (by decide)).2
      (by decide) (by decide)).1⟩

/-! ## C3 -/

/-- C3 counterexample: `bufHdr0` decodes successfully, yet its proper 12-byte
prefix fails with `SizeMismatch`, not `NotEnoughBytes`, in both modes: the
truncation is caught by the `bytes_remaining() < size` check of
`validate_signature`. -/
theorem truncated_prefix_fails_with_size_mismatch :
    fromBytesStrict (fun _ => none) bufHdr0 = Except.ok aniHdr0 ∧
    12 < bufHdr0.length ∧
    fromBytesStrict (fun _ => none) (bufHdr0.take 12) =
      Except.error (Fail.err (DecodeError.SizeMismatch 60 4)) ∧
    fromBytes (fun _ => none) (bufHdr0.take 12) =
      Except.error (Fail.err (DecodeError.SizeMismatch 60 4)) :=
  ⟨rfl, by decide, rfl, rfl⟩

/-- C3 as amended: whenever any cursor primitive requests more bytes than
remain, it fails with `NotEnoughBytes { needed }` where `needed` is the exact
shortfall — the number of bytes requested minus the number remaining — and
the cursor does not advance. -/
theorem not_enough_bytes_exact_shortfall :
    ∀ (n : Nat) (s : Bytes) (expected : Ident4),
      (s.length < n →
        readBytesS n s = (Except.error (DecodeError.NotEnoughBytes (n - s.length)), s) ∧
        peekBytesS n s = (Except.error (DecodeError.NotEnoughBytes (n - s.length)), s)) ∧
      (s.length < 4 →
        readIdentS s = (Except.error (DecodeError.NotEnoughBytes (4 - s.length)), s) ∧
        expectIdentS expected s =
          (Except.error (DecodeError.NotEnoughBytes (4 - s.length)), s) ∧
        readSizeS s = (Except.error (DecodeError.NotEnoughBytes (4 - s.length)), s) ∧
        peekSizeS s = (Except.error (DecodeError.NotEnoughBytes (4 - s.length)), s)) ∧
      (s.length < 36 →
        readHeaderS s = (Except.error (DecodeError.NotEnoughBytes (36 - s.length)), s)) := by
  intro n s expected
  refine ⟨fun h => ⟨?_, ?_⟩, fun h => ⟨?_, ?_, ?_, ?_⟩, fun h => ?_⟩ <;>
    first
    | (unfold readIdentS readBytesS; rw [if_neg (by omega)])
    | (unfold readBytesS; rw [if_neg (by omega)])
    | (unfold peekBytesS; rw [if_neg (by omega)])
    | (unfold expectIdentS; rw [if_neg (by omega)])
    | (unfold readSizeS; rw [if_neg (by omega)])
    | (unfold peekSizeS; rw [if_neg (by omega)])
    | (unfold readHeaderS; rw [if_neg (by omega)])

/-- Witness for C3's amended claim: requesting 9 bytes with 2 remaining. -/
theorem not_enough_bytes_exact_shortfall_witness :
    (([7, 7] : Bytes).length < 9) ∧
    readBytesS 9 [7, 7] = (Except.error (DecodeError.NotEnoughBytes (9 - 2)), [7, 7]) :=
  ⟨by decide, ((not_enough_bytes_exact_shortfall 9 [7, 7] idRIFF).1 (by decide)).1⟩

/-! ## C4 -/

/-- C4 counterexample: both modes decode `bufHdr0` successfully although the
resulting aggregate's `header().size()` is 0, not 36: `parse_anih_chunk`
validates the chunk's size field, never the record's internal `size` field. -/
theorem decoded_aggregate_header_size_not_36 :
    ∃ a : Ani,
      fromBytesStrict (fun _ => none) bufHdr0 = Except.ok a ∧
      fromBytes (fun _ => none) bufHdr0 = Except.ok a ∧
      a.header.size ≠ 36 :=
  ⟨aniHdr0, rfl, rfl, by decide⟩

/-- C4 as amended: what a successful `anih` decode does guarantee is that the
4-byte chunk size field preceding the record equals 36; the record's internal
size field is decoded but not validated. -/
theorem parse_anih_ok_chunk_size_36 :
    ∀ (s r : Bytes) (h : Header), parseAnihChunk s = (Except.ok h, r) →
      4 ≤ s.length ∧ leDec4 (s.take 4) = 36 := by
  intro s r hd hok
  unfold parseAnihChunk readSizeS at hok
  by_cases h4 : 4 ≤ s.length
  · rw [if_pos h4] at hok
    refine ⟨h4, ?_⟩
    by_cases h36 : leDec4 (s.take 4) = 36
    · exact h36
    · exfalso
      rw [show pbind ((Except.ok (leDec4 (s.take 4)) : Except DecodeError Nat), s.drop 4)
            (fun size s1 =>
              if size ≠ 36 then (Except.error (DecodeError.InvalidHeaderSize size), s1)
              else readHeaderS s1) =
          (if leDec4 (s.take 4) ≠ 36 then
            (Except.error (DecodeError.InvalidHeaderSize (leDec4 (s.take 4))), s.drop 4)
          else readHeaderS (s.drop 4)) from rfl, if_pos h36] at hok
      exact Except.noConfusion (congrArg Prod.fst hok)
  · rw [if_neg h4] at hok
    exact absurd (congrArg Prod.fst hok) (by simp [pbind])

/-- Witness for C4's amended claim. -/
theorem parse_anih_ok_chunk_size_36_witness :
    (parseAnihChunk (le32 36 ++ hdrBytes 0 0) = (Except.ok aniHdr0.header, [])) ∧
    4 ≤ (le32 36 ++ hdrBytes 0 0).length ∧
    leDec4 ((le32 36 ++ hdrBytes 0 0).take 4) = 36 :=
  ⟨rfl, parse_anih_ok_chunk_size_36 _ _ _ rfl⟩

/-! ## C1 -/

/-- C1 (refuting evaluation): `bufInfo` follows the strict wire grammar of
spec §6 (`RIFF`/size/`ACON`, a `LIST`-size-`INFO` metadata chunk, `anih` with
size 36, `LIST`-size-`fram`, all sizes exact).  Strict decoding succeeds and
returns its metadata, while lenient decoding of the same bytes fails with
`UnknownIdentifier "INFO"`: `from_bytes` classifies `LIST` sub-chunks by the
lower-case identifier `b"info"` although `from_bytes_strict` (and the wire
grammar) use `b"INFO"`. -/
theorem strict_ok_lenient_rejects_info_list :
    fromBytesStrict (fun _ => none) bufInfo =
      Except.ok
        { metadata := some { title := some [], author := none }
          header := { size := 36, frames := 0, steps := 0, x := 0, y := 0
                      bit_count := 0, planes := 0, jif_rate := 0, flags := 0 }
          rates := none
          sequence := none
          frames := [] } ∧
    fromBytes (fun _ => none) bufInfo =
      Except.error (Fail.err (DecodeError.UnknownIdentifier idINFO)) :=
  ⟨rfl, rfl⟩

/-! ## C2 -/

/-- The 36-byte header record of `bufPanic` as decoded. -/
def hdrPanic : Header :=
  { size := 36, frames := 1, steps := 0, x := 0, y := 0
    bit_count := 0, planes := 0, jif_rate := 0, flags := 0 }

theorem parseFram_one_empty_icon (ico : Bytes → Option IcoImages) (h : ico [] = none) :
    parseFramChunk ico 1 (idicon ++ le32 0) = (Except.error Fail.panicked, []) := by
  have e : parseFramChunk ico 1 (idicon ++ le32 0) =
      match ico [] with
      | none => (Except.error Fail.panicked, ([] : Bytes))
      | some imgs =>
        match parseFramChunk ico 0 [] with
        | (Except.error e, s4) => (Except.error e, s4)
        | (Except.ok rest, s4) => (Except.ok (imgs :: rest), s4) := rfl
  rw [e, h]

/-- C2 (refuting evaluation): on the structurally well-formed buffer
`bufPanic`, whose single `icon` sub-chunk has an empty payload, both decode
modes reach `.expect("todo")` in `parse_fram_chunk` with a failed external
icon decode and panic instead of returning a `DecodeError`. -/
theorem decode_panics_on_undecodable_icon (ico : Bytes → Option IcoImages)
    (h : ico [] = none) :
    fromBytesStrict ico bufPanic = Except.error Fail.panicked ∧
    fromBytes ico bufPanic = Except.error Fail.panicked := by
  have hfr := parseFram_one_empty_icon ico h
  constructor
  · have e : fromBytesStrict ico bufPanic =
        match parseFramChunk ico 1 (idicon ++ le32 0) with
        | (Except.error e, _) => Except.error e
        | (Except.ok frs, _) =>
          Except.ok { metadata := none, header := hdrPanic, rates := none
                      sequence := none, frames := frs } := rfl
    rw [e, hfr]
  · have e : fromBytes ico bufPanic =
        match (parseFramChunk ico 1 (idicon ++ le32 0)).1 with
        | Except.error e => Except.error e
        | Except.ok frs =>
          Except.ok { metadata := none, header := hdrPanic, rates := none
                      sequence := none, frames := frs } := rfl
    rw [e, hfr]

/-- Witness for C2, with the external icon decoder instantiated to one that
rejects the empty payload (as `ico::IconDir::read` does: an empty reader
cannot even supply the 6-byte ICONDIR header). -/
theorem decode_panics_on_undecodable_icon_witness :
    ((fun _ : Bytes => (none : Option IcoImages)) [] = none) ∧
    fromBytesStrict (fun _ => none) bufPanic = Except.error Fail.panicked ∧
    fromBytes (fun _ => none) bufPanic = Except.error Fail.panicked :=
  ⟨rfl, (decode_panics_on_undecodable_icon (fun _ => none) rfl).1,
    (decode_panics_on_undecodable_icon (fun _ => none) rfl).2⟩

/-! ## C7 -/

/-- C7 (extensional content, as realized on the little-endian targets the
crate runs on): `read::<Header>()` consumes exactly 36 bytes and every `u32`
field of the returned record is the little-endian interpretation of the
corresponding consecutive 4-byte group. -/
theorem read_header_per_field_le :
    ∀ s : Bytes, 36 ≤ s.length →
      readHeaderS s =
        (Except.ok
          { size := leDec4 (s.take 4)
            frames := leDec4 ((s.drop 4).take 4)
            steps := leDec4 ((s.drop 8).take 4)
            x := leDec4 ((s.drop 12).take 4)
            y := leDec4 ((s.drop 16).take 4)
            bit_count := leDec4 ((s.drop 20).take 4)
            planes := leDec4 ((s.drop 24).take 4)
            jif_rate := leDec4 ((s.drop 28).take 4)
            flags := leDec4 ((s.drop 32).take 4) }, s.drop 36) := by
  intro s h
  unfold readHeaderS fieldAt
  rw [if_pos h]
  norm_num [List.drop_zero]

/-- The 36 header-record bytes of the `header_chunk` test in `de/mod.rs`
(frame count 9, step count 21, jiffy rate 6, flags 3). -/
def hdrTest : Bytes :=
  [36, 0, 0, 0, 9, 0, 0, 0, 21, 0, 0, 0, 0, 0, 0, 0, 0, 0, 0, 0,
   0, 0, 0, 0, 0, 0, 0, 0, 6, 0, 0, 0, 3, 0, 0, 0]

/-- Witness for C7: the header test vector from `de/mod.rs` (frame count 9,
step count 21, jiffy rate 6, flags 3). -/
theorem read_header_per_field_le_witness :
    36 ≤ (hdrTest : Bytes).length ∧
    readHeaderS hdrTest =
      (Except.ok
        { size := leDec4 (hdrTest.take 4)
          frames := leDec4 ((hdrTest.drop 4).take 4)
          steps := leDec4 ((hdrTest.drop 8).take 4)
          x := leDec4 ((hdrTest.drop 12).take 4)
          y := leDec4 ((hdrTest.drop 16).take 4)
          bit_count := leDec4 ((hdrTest.drop 20).take 4)
          planes := leDec4 ((hdrTest.drop 24).take 4)
          jif_rate := leDec4 ((hdrTest.drop 28).take 4)
          flags := leDec4 ((hdrTest.drop 32).take 4) }, hdrTest.drop 36) :=
  ⟨by decide, read_header_per_field_le hdrTest (by decide)⟩

/-! ## C5: lemmas about the lenient scan -/

theorem bindE_ok {α β : Type} {x : Except DecodeError α} {f : α → Except DecodeError β}
    {b : β} (h : x >>= f = Except.ok b) : ∃ a, x = Except.ok a ∧ f a = Except.ok b := by
  cases x with
  | error e => exact absurd h (by simp [Bind.bind, Except.bind])
  | ok a => exact ⟨a, rfl, by simpa [Bind.bind, Except.bind] using h⟩

theorem stepE_readBytesS_ok {n : Nat} {s v s' : Bytes}
    (h : stepE (readBytesS n s) = Except.ok (v, s')) :
    v = s.take n ∧ s' = s.drop n ∧ n ≤ s.length := by
  unfold stepE readBytesS at h
  by_cases hn : n ≤ s.length
  · rw [if_pos hn] at h
    simp only [Except.ok.injEq, Prod.mk.injEq] at h
    exact ⟨h.1.symm, h.2.symm, hn⟩
  · rw [if_neg hn] at h
    simp at h

theorem stepE_readSizeS_ok {s : Bytes} {n : Nat} {s' : Bytes}
    (h : stepE (readSizeS s) = Except.ok (n, s')) :
    n = leDec4 (s.take 4) ∧ s' = s.drop 4 ∧ 4 ≤ s.length := by
  unfold stepE readSizeS at h
  by_cases h4 : 4 ≤ s.length
  · rw [if_pos h4] at h
    simp only [Except.ok.injEq, Prod.mk.injEq] at h
    exact ⟨h.1.symm, h.2.symm, h4⟩
  · rw [if_neg h4] at h
    simp at h

theorem stepE_peekSizeS_ok {s : Bytes} {n : Nat} {s' : Bytes}
    (h : stepE (peekSizeS s) = Except.ok (n, s')) :
    s' = s ∧ 4 ≤ s.length := by
  unfold stepE peekSizeS at h
  by_cases h4 : 4 ≤ s.length
  · rw [if_pos h4] at h
    simp only [Except.ok.injEq, Prod.mk.injEq] at h
    exact ⟨h.2.symm, h4⟩
  · rw [if_neg h4] at h
    simp at h

theorem pure_eq_ok {α : Type} {a b : α}
    (h : (pure a : Except DecodeError α) = Except.ok b) : a = b := by
  simpa [pure, Except.pure] using h

theorem bind_ok_red {α β : Type} (a : α) (f : α → Except DecodeError β) :
    (Except.ok a >>= f) = f a := rfl

/-- Every successful scan iteration consumes at least the 4 identifier bytes. -/
theorem scanStep_consumes {s : Bytes} {c : Chunk} {rest : Bytes}
    (h : scanStep s = Except.ok (c, rest)) : rest.length + 4 ≤ s.length := by
  unfold scanStep at h
  obtain ⟨⟨ident, s1⟩, h1, h⟩ := bindE_ok h
  obtain ⟨-, rfl, h1len⟩ := stepE_readBytesS_ok (show stepE (readBytesS 4 s) = _ from h1)
  dsimp only at h
  split at h
  · -- LIST
    obtain ⟨⟨sz, s2⟩, h2, h⟩ := bindE_ok h
    obtain ⟨-, rfl, h2len⟩ := stepE_readSizeS_ok h2
    dsimp only at h
    obtain ⟨⟨next, s3⟩, h3, h⟩ := bindE_ok h
    obtain ⟨-, rfl, h3len⟩ := stepE_readBytesS_ok (show stepE (readBytesS 4 _) = _ from h3)
    dsimp only at h
    split at h
    · obtain ⟨⟨d, s4⟩, h4, h⟩ := bindE_ok h
      obtain ⟨-, h4b, h4len⟩ := stepE_readBytesS_ok h4
      have hrest : rest = s4 := (Prod.ext_iff.mp (pure_eq_ok h)).2.symm
      rw [hrest, h4b]
      simp only [List.length_drop] at *
      omega
    split at h
    · obtain ⟨⟨d, s4⟩, h4, h⟩ := bindE_ok h
      obtain ⟨-, h4b, h4len⟩ := stepE_readBytesS_ok h4
      have hrest : rest = s4 := (Prod.ext_iff.mp (pure_eq_ok h)).2.symm
      rw [hrest, h4b]
      simp only [List.length_drop] at *
      omega
    · exact absurd h (by simp [throw, throwThe, MonadExceptOf.throw])
  split at h
  · -- anih
    obtain ⟨⟨sz, s1x⟩, h2, h⟩ := bindE_ok h
    obtain ⟨rfl, -⟩ := stepE_peekSizeS_ok h2
    dsimp only at h
    obtain ⟨⟨d, s2⟩, h3, h⟩ := bindE_ok h
    obtain ⟨-, h3b, h3len⟩ := stepE_readBytesS_ok h3
    have hrest : rest = s2 := (Prod.ext_iff.mp (pure_eq_ok h)).2.symm
    rw [hrest, h3b]
    simp only [List.length_drop] at *
    omega
  split at h
  · -- rate
    obtain ⟨⟨sz, s1x⟩, h2, h⟩ := bindE_ok h
    obtain ⟨rfl, -⟩ := stepE_peekSizeS_ok h2
    dsimp only at h
    obtain ⟨⟨d, s2⟩, h3, h⟩ := bindE_ok h
    obtain ⟨-, h3b, h3len⟩ := stepE_readBytesS_ok h3
    have hrest : rest = s2 := (Prod.ext_iff.mp (pure_eq_ok h)).2.symm
    rw [hrest, h3b]
    simp only [List.length_drop] at *
    omega
  split at h
  · -- seq
    obtain ⟨⟨sz, s1x⟩, h2, h⟩ := bindE_ok h
    obtain ⟨rfl, -⟩ := stepE_peekSizeS_ok h2
    dsimp only at h
    obtain ⟨⟨d, s2⟩, h3, h⟩ := bindE_ok h
    obtain ⟨-, h3b, h3len⟩ := stepE_readBytesS_ok h3
    have hrest : rest = s2 := (Prod.ext_iff.mp (pure_eq_ok h)).2.symm
    rw [hrest, h3b]
    simp only [List.length_drop] at *
    omega
  · exact absurd h (by simp [throw, throwThe, MonadExceptOf.throw])

/-- Any fuel at least `s.length` produces the same scan result: the fuel in
`scanChunksAux` is only a termination device. -/
theorem scanChunksAux_fuel_irrel : ∀ (f f' : Nat) (s : Bytes),
    s.length ≤ f → s.length ≤ f' → scanChunksAux f s = scanChunksAux f' s := by
  intro f
  induction f with
  | zero =>
    intro f' s hf _
    have hnil : s = [] := List.eq_nil_of_length_eq_zero (Nat.le_zero.mp hf)
    subst hnil
    cases f' <;> rfl
  | succ f ih =>
    intro f' s hf hf'
    cases s with
    | nil => cases f' <;> rfl
    | cons a s' =>
      cases s' with
      | nil =>
        cases f' with
        | zero => simp at hf'
        | succ f2 => rfl
      | cons b t =>
        cases f' with
        | zero => simp at hf'
        | succ f2 =>
          show scanChunksAux (f + 1) (a :: b :: t) = scanChunksAux (f2 + 1) (a :: b :: t)
          simp only [scanChunksAux]
          cases hstep : scanStep (a :: b :: t) with
          | error e => rfl
          | ok p =>
            obtain ⟨c, rest⟩ := p
            have hcons := scanStep_consumes hstep
            simp only [List.length_cons] at hf hf' hcons
            dsimp only
            rw [ih f2 rest (by omega) (by omega)]

/-- One successful scan iteration peels one chunk off the scan result. -/
theorem scanChunks_step {s : Bytes} {c : Chunk} {rest : Bytes}
    (h : scanStep s = Except.ok (c, rest)) :
    scanChunks s = Except.map (fun cs => c :: cs) (scanChunks rest) := by
  have hcons := scanStep_consumes h
  obtain ⟨a, b, t, rfl⟩ : ∃ a b t, s = a :: b :: t := by
    cases s with
    | nil => simp at hcons
    | cons a s' =>
      cases s' with
      | nil => simp at hcons
      | cons b t => exact ⟨a, b, t, rfl⟩
  unfold scanChunks
  show scanChunksAux (t.length + 1 + 1) (a :: b :: t) = _
  simp only [scanChunksAux, h]
  simp only [List.length_cons] at hcons
  rw [scanChunksAux_fuel_irrel (t.length + 1) rest.length rest (by omega) (by omega)]
  cases scanChunksAux rest.length rest <;> rfl

/-- The states the scan loop of `Ani::from_bytes` passes through, starting
from the state right after signature validation. -/
inductive ScanSteps : Bytes → Bytes → Prop
  | refl (s : Bytes) : ScanSteps s s
  | step {s : Bytes} {c : Chunk} {rest r : Bytes} :
      scanStep s = Except.ok (c, rest) → ScanSteps rest r → ScanSteps s r

theorem scanChunks_error_prop {s r : Bytes} (hsteps : ScanSteps s r) {e : DecodeError}
    (herr : scanChunks r = Except.error e) : scanChunks s = Except.error e := by
  induction hsteps with
  | refl => exact herr
  | step hstep _ ih => rw [scanChunks_step hstep, ih herr]; rfl

/-- A scan state whose next 4 bytes are none of `LIST`, `anih`, `rate`,
`seq ` makes the scan iteration fail with `UnknownIdentifier`. -/
theorem scanStep_unknown {r : Bytes} (h4 : 4 ≤ r.length)
    (hL : r.take 4 ≠ idLIST) (ha : r.take 4 ≠ idanih) (hr : r.take 4 ≠ idrate)
    (hs : r.take 4 ≠ idseqsp) :
    scanStep r = Except.error (DecodeError.UnknownIdentifier (r.take 4)) := by
  unfold scanStep
  rw [show stepE (readIdentS r) = Except.ok (r.take 4, r.drop 4) from by
    unfold stepE readIdentS readBytesS
    rw [if_pos h4]]
  rw [bind_ok_red]
  dsimp only
  rw [if_neg hL, if_neg ha, if_neg hr, if_neg hs]
  rfl

theorem scanChunks_unknown {r : Bytes} (h4 : 4 ≤ r.length)
    (hL : r.take 4 ≠ idLIST) (ha : r.take 4 ≠ idanih) (hr : r.take 4 ≠ idrate)
    (hs : r.take 4 ≠ idseqsp) :
    scanChunks r = Except.error (DecodeError.UnknownIdentifier (r.take 4)) := by
  obtain ⟨a, b, t, rfl⟩ : ∃ a b t, r = a :: b :: t := by
    cases r with
    | nil => simp at h4
    | cons a r' =>
      cases r' with
      | nil => simp at h4
      | cons b t => exact ⟨a, b, t, rfl⟩
  unfold scanChunks
  show scanChunksAux (t.length + 1 + 1) (a :: b :: t) = _
  simp only [scanChunksAux, scanStep_unknown h4 hL ha hr hs]

theorem fromBytes_scan_error {ico : Bytes → Option IcoImages} {data s0 : Bytes}
    {e : DecodeError} (hsig : validateSignatureS data = (Except.ok (), s0))
    (hscan : scanChunks s0 = Except.error e) :
    fromBytes ico data = Except.error (Fail.err e) := by
  unfold fromBytes
  rw [hsig]
  dsimp only
  rw [hscan]

/-- C5: whenever lenient decoding validates the signature and its scan then
reaches a state whose next 4 bytes form an identifier outside
`{RIFF, LIST, anih, rate, seq }`, the whole decode fails with
`UnknownIdentifier` carrying that identifier — unknown chunks are never
skipped. -/
theorem lenient_rejects_unknown_top_identifier :
    ∀ (ico : Bytes → Option IcoImages) (data s0 r : Bytes),
      validateSignatureS data = (Except.ok (), s0) →
      ScanSteps s0 r →
      4 ≤ r.length →
      r.take 4 ∉ ([idRIFF, idLIST, idanih, idrate, idseqsp] : List Ident4) →
      fromBytes ico data =
        Except.error (Fail.err (DecodeError.UnknownIdentifier (r.take 4))) := by
  intro ico data s0 r hsig hsteps h4 hn
  simp only [List.mem_cons, List.mem_singleton, not_or] at hn
  obtain ⟨-, hL, ha, hr, hs, -⟩ := hn
  exact fromBytes_scan_error hsig
    (scanChunks_error_prop hsteps (scanChunks_unknown h4 hL ha hr hs))

/-- A buffer whose payload starts with the unknown identifier `junk`. -/
def bufJunk : Bytes := idRIFF ++ le32 0 ++ idACON ++ [0x6A, 0x75, 0x6E, 0x6B]

/-- Witness for C5: lenient decoding of `bufJunk` fails with
`UnknownIdentifier "junk"`. -/
theorem lenient_rejects_unknown_top_identifier_witness :
    validateSignatureS bufJunk = (Except.ok (), [0x6A, 0x75, 0x6E, 0x6B]) ∧
    4 ≤ ([0x6A, 0x75, 0x6E, 0x6B] : Bytes).length ∧
    List.take 4 ([0x6A, 0x75, 0x6E, 0x6B] : Bytes) ∉
      ([idRIFF, idLIST, idanih, idrate, idseqsp] : List Ident4) ∧
    fromBytes (fun _ => none) bufJunk =
      Except.error
        (Fail.err (DecodeError.UnknownIdentifier
          (List.take 4 ([0x6A, 0x75, 0x6E, 0x6B] : Bytes)))) :=
  ⟨rfl, by decide, by decide,
    lenient_rejects_unknown_top_identifier (fun _ => none) bufJunk
      [0x6A, 0x75, 0x6E, 0x6B] [0x6A, 0x75, 0x6E, 0x6B] rfl
      (ScanSteps.refl _) (by decide) (by decide)⟩

end AniDe
